import Mathlib

/-!
Verification of the p2p-share WebRTC file-transfer application.

Shallow embedding of the core logic of the p2p-share repository:

* the NAT candidate classifier (webrtc config module: detectNatType and the
  CandidateInfo data it consumes),
* the bounded ICE-restart policy (attemptIceRestart, MAX_ICE_RESTARTS),
* the chunked file sender (sendFile, CHUNK_SIZE, waitForBufferedAmountLow),
* the receiver data-channel message handler (meta / binary / done branches,
  memory vs. direct-to-disk sinks, progress accounting),
* session teardown (cleanup, closeWritable) and pending ICE-candidate
  queueing (onIce, flushPendingIce),
* identifier generation (randomId, makePeerId) and the token route's
  ROOM_ID_PATTERN / CLIENT_ID_PATTERN validation.

Each definition mirrors the corresponding TypeScript function; the theorems
at the end of the file settle the specification claims about them.
-/

namespace P2PShare

/-! Candidate classifier (webrtc module). -/

/-- Candidate type tags of CandidateInfo:
host, srflx, relay, prflx or unknown. -/
inductive CandType where
  | host
  | srflx
  | relay
  | prflx
  | unknown
deriving DecidableEq, Repr

/-- Mirror of CandidateInfo: type, protocol, address, port, raw description. -/
structure CandidateInfo where
  type : CandType
  protocol : String
  address : String
  port : Nat
  raw : String
deriving DecidableEq, Repr

/-- Mirror of NatType: open, cone, restricted, symmetric or unknown.
Since open is a Lean keyword the first constructor is named open_. -/
inductive NatType where
  | open_
  | cone
  | restricted
  | symmetric
  | unknown
deriving DecidableEq, Repr

/-- The server-reflexive candidates: candidates.filter((c) => c.type === "srflx"). -/
def srflxOf (candidates : List CandidateInfo) : List CandidateInfo :=
  candidates.filter (fun c => c.type == CandType.srflx)

/-- The host candidates: candidates.filter((c) => c.type === "host"). -/
def hostOf (candidates : List CandidateInfo) : List CandidateInfo :=
  candidates.filter (fun c => c.type == CandType.host)

/-- The distinct (address, port) pairs of the reflexive candidates.
The source builds a Set of the strings address ++ ":" ++ port; since the
port's decimal digits contain no colon, that string key determines the pair
(split at the last colon), so the set's size is the number of distinct pairs,
which List.dedup computes here. -/
def uniqueEndpoints (candidates : List CandidateInfo) : List (String × Nat) :=
  ((srflxOf candidates).map (fun c => (c.address, c.port))).dedup

/-- The distinct addresses of the reflexive candidates:
a Set of srflx.map((c) => c.address). -/
def uniqueAddresses (candidates : List CandidateInfo) : List String :=
  ((srflxOf candidates).map (fun c => c.address)).dedup

/-- Mirror of detectNatType from the webrtc module, branch for branch. -/
def detectNatType (candidates : List CandidateInfo) : NatType :=
  let srflx := srflxOf candidates
  if srflx.length = 0 then
    -- Only host candidates? Could be open or STUN is blocked
    let host := hostOf candidates
    if host.length > 0 then NatType.open_ else NatType.unknown
  else
    if (uniqueEndpoints candidates).length = 1 then NatType.cone
    else if (uniqueAddresses candidates).length = 1 then NatType.restricted
    else if (uniqueEndpoints candidates).length ≥ 3 then NatType.symmetric
    else NatType.restricted

/-! Shared constants and enumerations of the page component. -/

/-- Mirror of CHUNK_SIZE = 256 * 1024. -/
def CHUNK_SIZE : Nat := 256 * 1024

/-- Mirror of MAX_ICE_RESTARTS = 5. -/
def MAX_ICE_RESTARTS : Nat := 5

/-- Mirror of Role = "sender" | "receiver". -/
inductive Role where
  | sender
  | receiver
deriving DecidableEq, Repr

/-- Mirror of ConnState = "idle" | "connecting" | "connected" | "failed". -/
inductive ConnState where
  | idle
  | connecting
  | connected
  | failed
deriving DecidableEq, Repr

/-- Mirror of ReceiveStorageMode = "memory" | "disk". -/
inductive ReceiveStorageMode where
  | memory
  | disk
deriving DecidableEq, Repr

/-- Mirror of FileMeta from the protocol module:
name, size, mime type, chunkSize, totalChunks. -/
structure FileMeta where
  name : String
  size : Nat
  type : String
  chunkSize : Nat
  totalChunks : Nat
deriving DecidableEq, Repr

/-- How a disk sink was closed: closeWritable(false) commits via close(),
closeWritable(true) aborts via abort(). -/
inductive SinkClose where
  | committed
  | aborted
deriving DecidableEq, Repr

/-- The mutable state of the page component that the verified handlers touch.
Refs holding external objects (signaling client, peer connection, data
channel, writable disk sink, unsubscribe callbacks) are modelled by whether
they are non-null; the writable sink also records, in sinkLog, the order in
which sinks were committed or aborted, and arrivedIce / appliedIce record
every ICE candidate the session received and every candidate handed to
addIceCandidate (candidates are identified by a number). -/
structure AppState where
  signaling : Bool
  peer : Bool
  remoteDescSet : Bool
  channel : Bool
  unsub : Bool
  unsubAblyState : Bool
  targetPeer : Option String
  connState : ConnState
  pendingIce : List Nat
  iceRestartCount : Nat
  gatheredCandidates : List CandidateInfo
  sendProgress : ℚ
  receiveProgress : ℚ
  incomingMeta : Option FileMeta
  incomingChunks : List Nat
  incomingReceived : Nat
  writable : Bool
  activeReceiveMode : ReceiveStorageMode
  savedToDiskName : Option String
  signalingState : String
  iceGatheringState : String
  detectedNat : NatType
  status : String
  sinkLog : List SinkClose
  arrivedIce : List Nat
  appliedIce : List Nat
deriving DecidableEq, Repr

/-- The initial component state: every ref null, counters zero, phase idle. -/
def initialAppState : AppState where
  signaling := false
  peer := false
  remoteDescSet := false
  channel := false
  unsub := false
  unsubAblyState := false
  targetPeer := none
  connState := ConnState.idle
  pendingIce := []
  iceRestartCount := 0
  gatheredCandidates := []
  sendProgress := 0
  receiveProgress := 0
  incomingMeta := none
  incomingChunks := []
  incomingReceived := 0
  writable := false
  activeReceiveMode := ReceiveStorageMode.memory
  savedToDiskName := none
  signalingState := "idle"
  iceGatheringState := "new"
  detectedNat := NatType.unknown
  status := "Ready"
  sinkLog := []
  arrivedIce := []
  appliedIce := []

/-! Disk sink closing and session teardown. -/

/-- Mirror of closeWritable(abort): a no-op when no sink is open; otherwise
nulls the ref and aborts (abort = true) or commits (abort = false) the sink,
ignoring cleanup failures. -/
def closeWritable (abort : Bool) (s : AppState) : AppState :=
  if s.writable = false then s
  else
    { s with
      writable := false
      sinkLog := s.sinkLog ++ [if abort then SinkClose.aborted else SinkClose.committed] }

/-- Mirror of cleanup(resetUi): aborts any open sink, drops the relay
subscriptions and closes signaling, channel and peer, clears the pending
candidate queue, the restart counter and the gathered candidates, and — when
resetUi is set — resets the UI-visible session and transfer state. -/
def cleanup (resetUi : Bool) (s : AppState) : AppState :=
  let s1 := closeWritable true s
  let s2 :=
    { s1 with
      unsub := false
      unsubAblyState := false
      signaling := false
      channel := false
      peer := false
      remoteDescSet := false
      pendingIce := ([] : List Nat)
      iceRestartCount := 0
      gatheredCandidates := ([] : List CandidateInfo) }
  if resetUi then
    { s2 with
      targetPeer := none
      connState := ConnState.idle
      sendProgress := 0
      receiveProgress := 0
      incomingMeta := none
      incomingChunks := ([] : List Nat)
      incomingReceived := 0
      activeReceiveMode := ReceiveStorageMode.memory
      savedToDiskName := none
      signalingState := "idle"
      iceGatheringState := "new"
      detectedNat := NatType.unknown }
  else s2

/-! ICE restart policy. -/

/-- The externally visible steps attemptIceRestart can take: regenerate a
local offer with iceRestart true, publish the offer envelope, publish the
redundant ice-batch envelope, or (receiver role) republish a join envelope. -/
inductive RestartAction where
  | createRestartOffer
  | publishOffer
  | publishIceBatch
  | publishJoin
deriving DecidableEq, Repr

/-- Mirror of attemptIceRestart (happy publish path). Returns the successor
state together with the list of actions performed. With peer, signaling or
target missing it is a no-op; with the restart budget exhausted it moves to
failed and performs nothing; otherwise it increments the counter, re-enters
connecting and re-runs the role's half of the negotiation: the sender
recreates and publishes an offer (with gathered candidates, plus an ice-batch
when any were gathered), the receiver republishes a join. -/
def attemptIceRestart (role : Role) (gathered : List CandidateInfo) (s : AppState) :
    AppState × List RestartAction :=
  if s.peer = false ∨ s.signaling = false ∨ s.targetPeer = none then (s, [])
  else if MAX_ICE_RESTARTS ≤ s.iceRestartCount then
    ({ s with connState := ConnState.failed }, [])
  else
    let s1 :=
      { s with
        iceRestartCount := s.iceRestartCount + 1
        connState := ConnState.connecting }
    match role with
    | Role.sender =>
        ({ s1 with
            gatheredCandidates := gathered
            detectedNat := detectNatType gathered
            iceGatheringState := "complete" },
          [RestartAction.createRestartOffer, RestartAction.publishOffer] ++
            (if 0 < gathered.length then [RestartAction.publishIceBatch] else []))
    | Role.receiver => (s1, [RestartAction.publishJoin])

/-- A sequence of consecutive connectivity-loss events: each one invokes
attemptIceRestart (the failed branch of onconnectionstatechange calls it
directly; the disconnected branch calls it after a 2-second grace period).
Returns the final state and the per-event action lists, in order. -/
def runLossEvents (role : Role) (gathered : List CandidateInfo) :
    Nat → AppState → AppState × List (List RestartAction)
  | 0, s => (s, [])
  | n + 1, s =>
      let r := attemptIceRestart role gathered s
      let rest := runLossEvents role gathered n r.1
      (rest.1, r.2 :: rest.2)

/-! Chunked file sender. -/

/-- A message placed on the data channel: a JSON control frame carrying
FileMeta, a binary frame (abstracted by its byte length), or the done
control frame. -/
inductive DataMsg where
  | meta (m : FileMeta)
  | chunk (len : Nat)
  | done
deriving DecidableEq, Repr

/-- The sender-side view of a selected file: name, mime type, byte size. -/
structure FileInfo where
  name : String
  type : String
  size : Nat
deriving DecidableEq, Repr

/-- Number of iterations of the sender loop
for (offset = 0; offset < size; offset += CHUNK_SIZE):
the least n with n * CHUNK_SIZE ≥ size. This is also the value
Math.ceil(size / CHUNK_SIZE) that sendFile stores in meta.totalChunks. -/
def chunkCount (size : Nat) : Nat :=
  (size + CHUNK_SIZE - 1) / CHUNK_SIZE

/-- The sender loop for (offset = 0; offset < size; offset += chunk): each
iteration slices file.slice(offset, min(offset + chunk, size)), a frame of
min chunk (size - offset) bytes. The structural fuel argument only bounds
the iteration count; size iterations always suffice because the offset
grows by chunk ≥ 1 each round. -/
def sendChunkLoop (chunk size : Nat) : Nat → Nat → List Nat
  | 0, _ => []
  | fuel + 1, offset =>
      if offset < size then
        min chunk (size - offset) :: sendChunkLoop chunk size fuel (offset + chunk)
      else []

/-- The byte lengths of the binary frames the sender loop emits for a file
of the given size, starting at offset 0 with CHUNK_SIZE steps. -/
def sendChunkSizes (size : Nat) : List Nat :=
  sendChunkLoop CHUNK_SIZE size size 0

/-- The FileMeta control payload sendFile builds for a selected file. -/
def mkFileMeta (file : FileInfo) : FileMeta where
  name := file.name
  size := file.size
  type := file.type
  chunkSize := CHUNK_SIZE
  totalChunks := chunkCount file.size

/-- The sender-side readyState of the data channel. -/
inductive ReadyState where
  | connecting
  | open_
  | closing
  | closed
deriving DecidableEq, Repr

/-- What sendFile leaves behind: the messages placed on the channel in
order, the resulting send-progress value and the status line. -/
structure SendResult where
  messages : List DataMsg
  sendProgress : ℚ
  status : String
deriving DecidableEq, Repr

/-- Mirror of sendFile on its guard and emission structure (the happy path in
which every backpressure wait succeeds; the waits themselves are modelled
separately below). With no file selected, no channel, or a channel that is
not open, it emits nothing; a zero-size file is rejected before the meta
message; otherwise it emits the meta control frame, the loop's binary frames
and the done control frame, ending with progress 100. -/
def sendFile (file : Option FileInfo) (channelState : Option ReadyState)
    (prevProgress : ℚ) : SendResult :=
  match file, channelState with
  | some f, some rs =>
      if rs ≠ ReadyState.open_ then
        { messages := [], sendProgress := prevProgress
          status := "Select a file and wait for connection" }
      else if f.size = 0 then
        { messages := [], sendProgress := prevProgress
          status := "Empty files are not supported" }
      else
        { messages :=
            DataMsg.meta (mkFileMeta f) ::
              (sendChunkSizes f.size).map DataMsg.chunk ++ [DataMsg.done]
          sendProgress := 100
          status := "File sent" }
  | _, _ =>
      { messages := [], sendProgress := prevProgress
        status := "Select a file and wait for connection" }

/-! Backpressure: waitForBufferedAmountLow and the sender loop. -/

/-- The low-water mark sendFile passes to waitForBufferedAmountLow:
CHUNK_SIZE * 8. -/
def LOW_WATER_MARK : Nat := CHUNK_SIZE * 8

/-- The bufferedAmountLowThreshold bindDataChannel configures on the
channel: CHUNK_SIZE * 4. The transport fires the bufferedamountlow event
when the outstanding buffer drains to at most this value. -/
def BUFFERED_AMOUNT_LOW_THRESHOLD : Nat := CHUNK_SIZE * 4

/-- The transport-facing state of the data channel while sending: whether it
is still open, its outstanding unsent-buffer volume, and the configured
bufferedamountlow event threshold. -/
structure ChannelState where
  isOpen : Bool
  bufferedAmount : Nat
  lowThreshold : Nat
deriving DecidableEq, Repr

/-- The ways waitForBufferedAmountLow rejects: the channel closed while
waiting, the channel errored while waiting, or the 6-second drain timer
expired with the buffer still above the threshold. -/
inductive WaitError where
  | closed
  | errored
  | timeout
deriving DecidableEq, Repr

/-- Which wake-up reaches a pending waitForBufferedAmountLow first, with the
environment's choice of how far the transport drained meanwhile:

* lowFired drainTo — the bufferedamountlow event; the transport fires it only
  once the buffer is at most the channel's lowThreshold, so the new volume is
  min drainTo lowThreshold;
* closeFired / errorFired — the close or error event;
* timerFired drain stillOpen — the 6-second timer, with drain bytes flushed
  since the wait began and stillOpen telling whether the channel is still
  open at that instant. -/
inductive WaitEvent where
  | lowFired (drainTo : Nat)
  | closeFired
  | errorFired
  | timerFired (drain : Nat) (stillOpen : Bool)
deriving DecidableEq, Repr

/-- Mirror of waitForBufferedAmountLow(channel, threshold): resolves
immediately when the channel is not open or the buffer is already at or
below the threshold; otherwise it suspends until the first wake-up:
bufferedamountlow resolves, close and error reject, and the 6-second timer
re-checks the channel — rejecting as closed when no longer open, resolving
when the buffer has drained to the threshold, rejecting as a drain timeout
otherwise. Returns the channel state at resolution time. -/
def waitForBufferedAmountLow (ch : ChannelState) (threshold : Nat) (ev : WaitEvent) :
    Except WaitError ChannelState :=
  if ch.isOpen = false ∨ ch.bufferedAmount ≤ threshold then Except.ok ch
  else
    match ev with
    | WaitEvent.lowFired drainTo =>
        Except.ok { ch with bufferedAmount := min drainTo ch.lowThreshold }
    | WaitEvent.closeFired => Except.error WaitError.closed
    | WaitEvent.errorFired => Except.error WaitError.errored
    | WaitEvent.timerFired drain stillOpen =>
        let now : ChannelState :=
          { ch with isOpen := stillOpen, bufferedAmount := ch.bufferedAmount - drain }
        if now.isOpen = false then Except.error WaitError.closed
        else if now.bufferedAmount ≤ threshold then Except.ok now
        else Except.error WaitError.timeout

/-- What the environment does around one iteration of the sender loop:
preDrain bytes flushed by the transport since the previous iteration,
closeNow closing the channel before the loop's readyState check, and the
wake-up delivered to the backpressure wait of this iteration. -/
structure EnvStep where
  preDrain : Nat
  closeNow : Bool
  waitEv : WaitEvent
deriving Repr

/-- The channel as the loop's readyState check sees it after the
environment's pre-step. -/
def applyEnvPre (ch : ChannelState) (e : EnvStep) : ChannelState :=
  { ch with
    isOpen := ch.isOpen && !e.closeNow
    bufferedAmount := ch.bufferedAmount - e.preDrain }

/-- The channel's buffered volume sampled immediately before and immediately
after one channel.send(buffer). -/
structure SendSample where
  beforeSend : Nat
  afterSend : Nat
deriving DecidableEq, Repr

/-- The outcome of running the sender loop: which frame lengths were handed
to the channel, the buffer samples around each send, and the final channel
state or the error that aborted the transfer. -/
structure LoopResult where
  sent : List Nat
  samples : List SendSample
  result : Except WaitError ChannelState
deriving Repr

/-- Mirror of the try-block loop of sendFile, driven by the environment:
each iteration checks that the channel is still open (throwing otherwise),
waits for the buffered amount to drop to LOW_WATER_MARK, and on resolution
hands the next frame to the channel, which adds its length to the
outstanding buffer. A rejected wait aborts the loop. -/
def sendLoop (envs : Nat → EnvStep) : ChannelState → List Nat → Nat → LoopResult
  | ch, [], _ => { sent := [], samples := [], result := Except.ok ch }
  | ch, len :: rest, i =>
      let ch1 := applyEnvPre ch (envs i)
      if ch1.isOpen = false then
        { sent := [], samples := [], result := Except.error WaitError.closed }
      else
        match waitForBufferedAmountLow ch1 LOW_WATER_MARK (envs i).waitEv with
        | Except.error e =>
            { sent := [], samples := [], result := Except.error e }
        | Except.ok ch2 =>
            let ch3 := { ch2 with bufferedAmount := ch2.bufferedAmount + len }
            let r := sendLoop envs ch3 rest (i + 1)
            { sent := len :: r.sent
              samples := { beforeSend := ch2.bufferedAmount, afterSend := ch3.bufferedAmount } :: r.samples
              result := r.result }

/-- The catch-block of sendFile: a rejected wait (or a mid-transfer close)
marks the session failed — the engine performs no automatic resume — while a
completed loop leaves the connected session state. -/
def sendFileOutcome : Except WaitError ChannelState → ConnState
  | Except.error _ => ConnState.failed
  | Except.ok _ => ConnState.connected

/-! Receiver message handler. -/

/-- Mirror of the percentage clamp of the Progress component:
max 0 (min 100 value). Every value of the embedding is a rational, so the
Number.isFinite guard of the source is always true here. -/
def boundedProgress (value : ℚ) : ℚ :=
  max 0 (min 100 value)

/-- Mirror of resetIncomingTransfer: aborts any open sink and clears the
incoming-transfer state. -/
def resetIncomingTransfer (s : AppState) : AppState :=
  let s1 := closeWritable true s
  { s1 with
    savedToDiskName := none
    activeReceiveMode := ReceiveStorageMode.memory
    incomingChunks := ([] : List Nat)
    incomingReceived := 0
    receiveProgress := 0
    incomingMeta := none }

/-- Mirror of the meta branch of the onmessage handler: reset any prior
transfer, record the announced FileMeta, then choose the sink — a
progressive disk writer only when the role is receiver, the disk preference
is set and a save handle was pre-acquired and createWritable succeeds
(createWritableOk), with silent fallback to memory mode otherwise. -/
def onMetaMessage (s : AppState) (m : FileMeta) (role : Role)
    (preferDiskReceive saveHandle createWritableOk : Bool) : AppState :=
  let s1 := resetIncomingTransfer s
  let s2 := { s1 with incomingMeta := some m }
  if role == Role.receiver && preferDiskReceive && saveHandle then
    if createWritableOk then
      { s2 with
        writable := true
        activeReceiveMode := ReceiveStorageMode.disk
        status := "Receiving directly to disk" }
    else
      { s2 with
        activeReceiveMode := ReceiveStorageMode.memory
        status := "Receiving (memory mode fallback)" }
  else
    { s2 with
      activeReceiveMode := ReceiveStorageMode.memory
      status := "Receiving" }

/-- The byte accounting shared by the binary-branch paths that append a
frame: the frame's length is added to incomingReceived and the receive
progress is set to received / total * 100 with total = incomingMeta?.size
?? 1 (or to 100 when total is 0). The stored value is not clamped; the
clamp happens in boundedProgress at display time. -/
def accumulateFrame (s : AppState) (len : Nat) : AppState :=
  let received := s.incomingReceived + len
  let total := (s.incomingMeta.map FileMeta.size).getD 1
  let pct : ℚ := if 0 < total then ((received : ℚ) / (total : ℚ)) * 100 else 100
  { s with incomingReceived := received, receiveProgress := pct }

/-- Mirror of the binary branch of the onmessage handler for a frame of len
bytes. With an open disk sink the frame is written to it — writeOk telling
whether the write succeeds; a failed write marks the session failed and
aborts the sink, returning before the byte accounting. Without a disk sink
the frame is pushed onto the memory accumulator. Both appending paths then
run the shared accounting. -/
def onBinaryFrame (s : AppState) (len : Nat) (writeOk : Bool) : AppState :=
  if s.writable then
    if writeOk then
      accumulateFrame s len
    else
      closeWritable true
        { s with
          connState := ConnState.failed
          status := "Disk write failed during transfer" }
  else
    accumulateFrame { s with incomingChunks := s.incomingChunks ++ [len] } len

/-- Mirror of the done branch of the onmessage handler: with an open disk
sink, commit it (closeWritable(false)), record the saved name and finish at
progress 100; otherwise materialize the memory accumulator into a download
and finish at progress 100. -/
def onDoneMessage (s : AppState) : AppState :=
  if s.writable then
    let s1 := closeWritable false s
    { s1 with
      savedToDiskName := some (((s.incomingMeta.map FileMeta.name)).getD "received file")
      receiveProgress := 100
      status := "Transfer complete. File saved to selected location." }
  else
    { s with
      receiveProgress := 100
      status := "Transfer complete" }

/-! Pending ICE candidates. -/

/-- Mirror of onIce for a candidate c (identified by a number): with no peer
connection or no remote description the candidate is appended to the pending
queue; otherwise it is handed to addIceCandidate at once — applyOk tells
whether that application succeeds, and a failure is swallowed by the empty
catch, so the resulting state does not depend on it. arrivedIce records the
arrival, appliedIce the application attempt. -/
def onIce (s : AppState) (c : Nat) (applyOk : Bool) : AppState :=
  let s0 := { s with arrivedIce := s.arrivedIce ++ [c] }
  if s0.peer = false ∨ s0.remoteDescSet = false then
    { s0 with pendingIce := s0.pendingIce ++ [c] }
  else
    -- try { addIceCandidate(c) } catch { ignore }: applyOk is irrelevant
    let _ := applyOk
    { s0 with appliedIce := s0.appliedIce ++ [c] }

/-- Mirror of flushPendingIce: a no-op without a peer connection or with an
empty queue; otherwise the queue is copied, cleared, and every queued
candidate is handed to addIceCandidate in order (individual failures again
swallowed). -/
def flushPendingIce (s : AppState) : AppState :=
  if s.peer = false ∨ s.pendingIce = [] then s
  else
    { s with
      pendingIce := ([] : List Nat)
      appliedIce := s.appliedIce ++ s.pendingIce }

/-- Mirror of makePeerConnection on the session state: the old peer is
closed and replaced by a fresh one with no remote description, and the
candidate diagnostics are reset. -/
def makePeerConnectionState (s : AppState) : AppState :=
  { s with
    peer := true
    remoteDescSet := false
    gatheredCandidates := ([] : List CandidateInfo)
    detectedNat := NatType.unknown
    iceGatheringState := "new" }

/-- Setting a remote description followed by the flush of the pending
queue, as onOffer and onAnswer both do. -/
def applyRemoteDescription (s : AppState) : AppState :=
  flushPendingIce { s with remoteDescSet := true }

/-- The signaling events relevant to candidate handling: a single candidate
arriving (via an ice envelope or as one element of an ice-batch), an offer
arriving at the receiver (fresh peer, then remote description plus flush),
and an answer arriving at the sender (remote description plus flush, guarded
on the peer existing). -/
inductive SignalEv where
  | iceArrives (c : Nat) (applyOk : Bool)
  | offerArrives
  | answerArrives
deriving Repr

/-- One signaling event applied to the session state. -/
def stepSignal (s : AppState) : SignalEv → AppState
  | SignalEv.iceArrives c ok => onIce s c ok
  | SignalEv.offerArrives => applyRemoteDescription (makePeerConnectionState s)
  | SignalEv.answerArrives => if s.peer then applyRemoteDescription s else s

/-- A sequence of signaling events applied in order. -/
def runSignal (s : AppState) (evs : List SignalEv) : AppState :=
  evs.foldl stepSignal s

/-! Identifier generation and the token route. -/

/-- Mirror of the randomId alphabet
"abcdefghijkmnpqrstuvwxyz23456789" (32 characters). -/
def idAlphabet : List Char :=
  "abcdefghijkmnpqrstuvwxyz23456789".toList

/-- Mirror of randomId: one character chars[bytes[i] % chars.length] per
random byte; the byte values are the environment's randomness, the id's
length is the number of bytes drawn. The modulus keeps the index in bounds,
so getD never falls back to its default. -/
def randomId (bytes : List Nat) : List Char :=
  bytes.map (fun b => idAlphabet.getD (b % idAlphabet.length) 'a')

/-- Decimal rendering of a natural number, as the template literal
interpolation of Date.now() produces it; the fuel argument of the auxiliary
function is always sufficient since n / 10 < n. -/
def decimalDigitsAux : Nat → Nat → List Char
  | 0, _ => []
  | fuel + 1, n =>
      if n < 10 then [Nat.digitChar n]
      else decimalDigitsAux fuel (n / 10) ++ [Nat.digitChar (n % 10)]

/-- Decimal digit string of n. -/
def decimalDigits (n : Nat) : List Char :=
  decimalDigitsAux (n + 1) n

/-- Mirror of makePeerId for a timestamp ts = Date.now() and six random
bytes: the decimal timestamp, a hyphen, then randomId of length 6. -/
def makePeerId (ts : Nat) (bytes : List Nat) : List Char :=
  decimalDigits ts ++ ['-'] ++ randomId bytes

/-- Membership in the character class [a-zA-Z0-9_-] shared by both route
patterns. -/
def isIdChar (c : Char) : Bool :=
  (decide ('a' ≤ c) && decide (c ≤ 'z')) ||
    (decide ('A' ≤ c) && decide (c ≤ 'Z')) ||
    (decide ('0' ≤ c) && decide (c ≤ '9')) ||
    c == '_' || c == '-'

/-- Mirror of ROOM_ID_PATTERN.test: the anchored regex over [a-zA-Z0-9_-]
with length between 3 and 64. -/
def roomIdPatternTest (s : List Char) : Bool :=
  decide (3 ≤ s.length) && decide (s.length ≤ 64) && s.all isIdChar

/-- Mirror of CLIENT_ID_PATTERN.test: the anchored regex over [a-zA-Z0-9_-]
with length between 6 and 120. -/
def clientIdPatternTest (s : List Char) : Bool :=
  decide (6 ≤ s.length) && decide (s.length ≤ 120) && s.all isIdChar

/-- The distinguishable responses of the ably-token GET route. -/
inductive TokenResponse where
  | missingKey
  | invalidRoomId
  | invalidClientId
  | token (clientId roomId : List Char)
deriving DecidableEq, Repr

/-- Mirror of the GET handler of the ably-token route: a 500 without the
server key, 400 Invalid roomId when the roomId parameter is absent or fails
ROOM_ID_PATTERN, 400 Invalid clientId when the clientId parameter is absent
or fails CLIENT_ID_PATTERN, and otherwise a token request scoped to the
room's channel for that client. -/
def ablyTokenGET (apiKey : Bool) (roomId clientId : Option (List Char)) : TokenResponse :=
  if apiKey = false then TokenResponse.missingKey
  else
    match roomId with
    | none => TokenResponse.invalidRoomId
    | some r =>
        if roomIdPatternTest r = false then TokenResponse.invalidRoomId
        else
          match clientId with
          | none => TokenResponse.invalidClientId
          | some c =>
              if clientIdPatternTest c = false then TokenResponse.invalidClientId
              else TokenResponse.token c r

/-! Concrete inputs used when settling the claims on specific values. -/

/-- A server-reflexive candidate on a fixed address with a chosen port. -/
def srflxCand (port : Nat) : CandidateInfo where
  type := CandType.srflx
  protocol := "udp"
  address := "203.0.113.7"
  port := port
  raw := ""

/-- A server-reflexive candidate with a chosen address and port. -/
def srflxCandAt (address : String) (port : Nat) : CandidateInfo where
  type := CandType.srflx
  protocol := "udp"
  address := address
  port := port
  raw := ""

/-- A connected session with a target peer and a fresh restart budget, as it
stands right after a successful Connected transition. -/
def connectedSession : AppState :=
  { initialAppState with
    signaling := true
    peer := true
    remoteDescSet := true
    channel := true
    targetPeer := some "1700000000000-abcdef"
    connState := ConnState.connected }

/-- A FileMeta announcing an incoming file of the given size. -/
def incomingMetaOfSize (size : Nat) : FileMeta where
  name := "incoming.bin"
  size := size
  type := "application/octet-stream"
  chunkSize := CHUNK_SIZE
  totalChunks := chunkCount size

/-- The receiver right after a meta control message for a 100-byte file with
the memory accumulator selected (no disk preference). -/
def recvMemoryState : AppState :=
  onMetaMessage initialAppState (incomingMetaOfSize 100) Role.receiver false false true

/-- The receiver right after a meta control message for a 100-byte file with
the progressive disk writer selected (disk preference, save handle acquired,
createWritable succeeded). -/
def recvDiskState : AppState :=
  onMetaMessage initialAppState (incomingMetaOfSize 100) Role.receiver true true true

/-!
Theorems. Each claim Cn is settled by the theorem carrying its name; helper
lemmas precede them.
-/

/-- Helper: a list of candidates with no reflexive member has no distinct
reflexive endpoints. -/
theorem uniqueEndpoints_of_srflx_nil {cs : List CandidateInfo}
    (h : srflxOf cs = []) : uniqueEndpoints cs = [] := by
  simp [uniqueEndpoints, h]

/-- C1: the claimed branch order of detectNatType holds, except that three
or more distinct (address, port) pairs yield symmetric only when at least
two distinct addresses occur — the single-distinct-address test precedes the
pair-count test. -/
theorem C1_detectNatType_characterization (cs : List CandidateInfo) :
    (srflxOf cs = [] → hostOf cs = [] → detectNatType cs = NatType.unknown) ∧
    (srflxOf cs = [] → hostOf cs ≠ [] → detectNatType cs = NatType.open_) ∧
    (srflxOf cs ≠ [] → (uniqueEndpoints cs).length = 1 →
      detectNatType cs = NatType.cone) ∧
    (srflxOf cs ≠ [] → (uniqueEndpoints cs).length ≠ 1 →
      (uniqueAddresses cs).length = 1 → detectNatType cs = NatType.restricted) ∧
    ((uniqueEndpoints cs).length ≥ 3 → (uniqueAddresses cs).length ≥ 2 →
      detectNatType cs = NatType.symmetric) ∧
    ((uniqueEndpoints cs).length = 2 → (uniqueAddresses cs).length ≥ 2 →
      detectNatType cs = NatType.restricted) := by
  refine ⟨?_, ?_, ?_, ?_, ?_, ?_⟩
  · intro hs hh
    simp [detectNatType, hs, hh]
  · intro hs hh
    simp [detectNatType, hs, List.length_pos.mpr hh]
  · intro hs he
    simp [detectNatType, List.length_eq_zero.not.mpr hs, he]
  · intro hs he ha
    simp [detectNatType, List.length_eq_zero.not.mpr hs, he, ha]
  · intro he ha
    have hs : srflxOf cs ≠ [] := by
      intro h
      simp [uniqueEndpoints_of_srflx_nil h] at he
    have he1 : (uniqueEndpoints cs).length ≠ 1 := by omega
    have ha1 : (uniqueAddresses cs).length ≠ 1 := by omega
    simp [detectNatType, List.length_eq_zero.not.mpr hs, he1, ha1, he]
  · intro he ha
    have hs : srflxOf cs ≠ [] := by
      intro h
      simp [uniqueEndpoints_of_srflx_nil h] at he
    have he1 : (uniqueEndpoints cs).length ≠ 1 := by omega
    have ha1 : (uniqueAddresses cs).length ≠ 1 := by omega
    have he3 : ¬ (uniqueEndpoints cs).length ≥ 3 := by omega
    simp [detectNatType, List.length_eq_zero.not.mpr hs, he1, ha1, he3]

/-- C1 counterexample: three server-reflexive candidates with three distinct
(address, port) pairs that all share one address are classified restricted,
not symmetric. -/
theorem C1_counterexample :
    (uniqueEndpoints [srflxCand 50000, srflxCand 50001, srflxCand 50002]).length = 3 ∧
    detectNatType [srflxCand 50000, srflxCand 50001, srflxCand 50002] = NatType.restricted ∧
    detectNatType [srflxCand 50000, srflxCand 50001, srflxCand 50002] ≠ NatType.symmetric := by
  refine ⟨rfl, rfl, by decide⟩

/-- C1 witness: the amended characterization applied to three reflexive
candidates with three distinct pairs over two distinct addresses. -/
theorem C1_witness :
    detectNatType [srflxCandAt "198.51.100.1" 1, srflxCandAt "198.51.100.2" 2,
      srflxCandAt "198.51.100.2" 3] = NatType.symmetric :=
  (C1_detectNatType_characterization _).2.2.2.2.1 (by decide) (by decide)

/-- Helper: an exhausted restart budget moves the session to failed and
performs no action. -/
theorem attemptIceRestart_exhausted (role : Role) (g : List CandidateInfo)
    (s : AppState) (hp : s.peer = true) (hs : s.signaling = true)
    (ht : s.targetPeer ≠ none) (hc : MAX_ICE_RESTARTS ≤ s.iceRestartCount) :
    attemptIceRestart role g s = ({ s with connState := ConnState.failed }, []) := by
  simp [attemptIceRestart, hp, hs, ht, hc]

/-- Helper: with budget remaining, a loss event increments the restart
counter, re-enters connecting, preserves the guard fields and performs at
least one action. -/
theorem attemptIceRestart_attempt (role : Role) (g : List CandidateInfo)
    (s : AppState) (hp : s.peer = true) (hs : s.signaling = true)
    (ht : s.targetPeer ≠ none) (hc : s.iceRestartCount < MAX_ICE_RESTARTS) :
    (attemptIceRestart role g s).1.iceRestartCount = s.iceRestartCount + 1 ∧
    (attemptIceRestart role g s).1.connState = ConnState.connecting ∧
    (attemptIceRestart role g s).1.peer = true ∧
    (attemptIceRestart role g s).1.signaling = true ∧
    (attemptIceRestart role g s).1.targetPeer = s.targetPeer ∧
    (attemptIceRestart role g s).2 ≠ [] := by
  have hc' : ¬ MAX_ICE_RESTARTS ≤ s.iceRestartCount := by omega
  cases role <;> simp [attemptIceRestart, hp, hs, ht, hc']

/-- Helper: running a + b loss events runs a of them, then b more from the
resulting state, concatenating the action lists. -/
theorem runLossEvents_add (role : Role) (g : List CandidateInfo) (a b : Nat) :
    ∀ s : AppState,
      runLossEvents role g (a + b) s =
        ((runLossEvents role g b (runLossEvents role g a s).1).1,
          (runLossEvents role g a s).2 ++
            (runLossEvents role g b (runLossEvents role g a s).1).2) := by
  induction a with
  | zero => intro s; simp [runLossEvents]
  | succ n ih =>
      intro s
      have : n + 1 + b = (n + b) + 1 := by omega
      rw [this]
      simp only [runLossEvents, ih]
      simp [List.cons_append]

/-- Helper: as long as the budget is not exhausted, k consecutive loss
events each attempt a restart, adding k to the counter and leaving the
session connecting (for k ≥ 1). -/
theorem runLossEvents_attempts (role : Role) (g : List CandidateInfo) :
    ∀ (k : Nat) (s : AppState), s.peer = true → s.signaling = true →
      s.targetPeer ≠ none → s.iceRestartCount + k ≤ MAX_ICE_RESTARTS →
      (runLossEvents role g k s).1.iceRestartCount = s.iceRestartCount + k ∧
      (runLossEvents role g k s).1.peer = true ∧
      (runLossEvents role g k s).1.signaling = true ∧
      (runLossEvents role g k s).1.targetPeer = s.targetPeer ∧
      (k ≠ 0 → (runLossEvents role g k s).1.connState = ConnState.connecting) ∧
      (k = 0 → (runLossEvents role g k s).1 = s) ∧
      (runLossEvents role g k s).2.length = k ∧
      (∀ a ∈ (runLossEvents role g k s).2, a ≠ []) := by
  intro k
  induction k with
  | zero =>
      intro s hp hs ht _
      simp [runLossEvents, hp, hs, ht]
  | succ n ih =>
      intro s hp hs ht hb
      have hc : s.iceRestartCount < MAX_ICE_RESTARTS := by omega
      obtain ⟨h1, h2, h3, h4, h5, h6⟩ :=
        attemptIceRestart_attempt role g s hp hs ht hc
      set s1 := (attemptIceRestart role g s).1 with hs1
      have ht1 : s1.targetPeer ≠ none := by rw [h5]; exact ht
      have hb1 : s1.iceRestartCount + n ≤ MAX_ICE_RESTARTS := by omega
      obtain ⟨g1, g2, g3, g4, g5, g6, g7, g8⟩ := ih s1 h3 h4 ht1 hb1
      refine ⟨?_, ?_, ?_, ?_, ?_, ?_, ?_, ?_⟩
      · show (runLossEvents role g n s1).1.iceRestartCount = _
        omega
      · exact g2
      · exact g3
      · show (runLossEvents role g n s1).1.targetPeer = s.targetPeer
        rw [g4, h5]
      · intro _
        rcases Nat.eq_zero_or_pos n with hn | hn
        · subst hn
          have := g6 rfl
          show (runLossEvents role g 0 s1).1.connState = _
          rw [this, h2]
        · exact g5 (by omega)
      · intro h; omega
      · show ((attemptIceRestart role g s).2 :: (runLossEvents role g n s1).2).length = n + 1
        simp [g7]
      · intro a ha
        rcases List.mem_cons.mp ha with h | h
        · subst h; exact h6
        · exact g8 a h

/-- Helper: a session whose budget is exhausted and whose phase is already
failed is a fixed point of loss events, and no event performs an action. -/
theorem runLossEvents_failed (role : Role) (g : List CandidateInfo) :
    ∀ (n : Nat) (s : AppState), s.peer = true → s.signaling = true →
      s.targetPeer ≠ none → MAX_ICE_RESTARTS ≤ s.iceRestartCount →
      s.connState = ConnState.failed →
      (runLossEvents role g n s).1 = s ∧
      (runLossEvents role g n s).2 = List.replicate n [] := by
  intro n
  induction n with
  | zero => intro s _ _ _ _ _; simp [runLossEvents]
  | succ m ih =>
      intro s hp hs ht hc hf
      have hstep : attemptIceRestart role g s = (s, []) := by
        rw [attemptIceRestart_exhausted role g s hp hs ht hc]
        have : { s with connState := ConnState.failed } = s := by
          cases s
          simp_all
        rw [this]
      obtain ⟨i1, i2⟩ := ih s hp hs ht hc hf
      constructor
      · show (runLossEvents role g m (attemptIceRestart role g s).1).1 = s
        rw [hstep]
        exact i1
      · show (attemptIceRestart role g s).2 ::
          (runLossEvents role g m (attemptIceRestart role g s).1).2 = _
        rw [hstep]
        simp [i2, List.replicate_succ]

/-- C2 counterexample: from a freshly connected session, after exactly
MAX_ICE_RESTARTS = 5 consecutive loss events the phase is connecting — not
failed — and every one of the five events attempted a restart; the failure
only happens on the sixth consecutive loss. -/
theorem C2_counterexample :
    (runLossEvents Role.sender [] MAX_ICE_RESTARTS connectedSession).1.connState =
      ConnState.connecting ∧
    (runLossEvents Role.sender [] MAX_ICE_RESTARTS connectedSession).1.connState ≠
      ConnState.failed ∧
    (∀ a ∈ (runLossEvents Role.sender [] MAX_ICE_RESTARTS connectedSession).2, a ≠ []) := by
  refine ⟨by decide, by decide, by decide⟩

/-- C2 (amended): from a session with a target peer and a fresh restart
budget, the first MAX_RESTARTS = 5 consecutive loss events each attempt an
automatic restart, leaving the session connecting with the budget exhausted;
every loss event beyond the fifth performs no action at all (no restart
offer, no join republish), and from the sixth consecutive loss on the phase
is failed. -/
theorem C2_restart_bound (role : Role) (g : List CandidateInfo) (s : AppState)
    (hp : s.peer = true) (hs : s.signaling = true) (ht : s.targetPeer ≠ none)
    (h0 : s.iceRestartCount = 0) :
    ((runLossEvents role g MAX_ICE_RESTARTS s).1.connState = ConnState.connecting ∧
      (runLossEvents role g MAX_ICE_RESTARTS s).1.iceRestartCount = MAX_ICE_RESTARTS) ∧
    (∀ n : Nat,
      (∀ a ∈ (runLossEvents role g n s).2.take MAX_ICE_RESTARTS, a ≠ []) ∧
      (∀ a ∈ (runLossEvents role g n s).2.drop MAX_ICE_RESTARTS, a = []) ∧
      (MAX_ICE_RESTARTS < n → (runLossEvents role g n s).1.connState = ConnState.failed)) := by
  obtain ⟨a1, a2, a3, a4, a5, _, a7, a8⟩ :=
    runLossEvents_attempts role g MAX_ICE_RESTARTS s hp hs ht (by omega)
  refine ⟨⟨a5 (by decide), by omega⟩, ?_⟩
  intro n
  rcases le_or_lt n MAX_ICE_RESTARTS with hn | hn
  · -- within the budget every event attempts a restart and none is dropped
    obtain ⟨_, _, _, _, _, _, b7, b8⟩ :=
      runLossEvents_attempts role g n s hp hs ht (by omega)
    refine ⟨?_, ?_, ?_⟩
    · intro a ha
      exact b8 a (List.mem_of_mem_take ha)
    · intro a ha
      have : (runLossEvents role g n s).2.drop MAX_ICE_RESTARTS = [] :=
        List.drop_eq_nil_of_le (by omega)
      simp [this] at ha
    · intro h; omega
  · -- beyond the budget: five attempts, then the failing sixth, then inertia
    obtain ⟨m, hm⟩ : ∃ m, n = MAX_ICE_RESTARTS + 1 + m := ⟨n - MAX_ICE_RESTARTS - 1, by omega⟩
    subst hm
    set s5 := (runLossEvents role g MAX_ICE_RESTARTS s).1 with hs5
    have ht5 : s5.targetPeer ≠ none := by rw [a4]; exact ht
    have hstep6 : attemptIceRestart role g s5 =
        ({ s5 with connState := ConnState.failed }, []) :=
      attemptIceRestart_exhausted role g s5 a2 a3 ht5 (by omega)
    set s6 : AppState := { s5 with connState := ConnState.failed } with hs6
    have hrest := runLossEvents_failed role g m s6 a2 a3 ht5 (by simp [hs6]; omega) rfl
    have hsplit := runLossEvents_add role g MAX_ICE_RESTARTS (1 + m) s
    have hone : runLossEvents role g (1 + m) s5 = (s6, [] :: List.replicate m []) := by
      have hm1 : (1 : Nat) + m = m + 1 := by omega
      rw [hm1]
      show (_, (attemptIceRestart role g s5).2 ::
        (runLossEvents role g m (attemptIceRestart role g s5).1).2) = _
      rw [hstep6]
      simp only []
      rw [hrest.1, hrest.2]
    have hassoc : MAX_ICE_RESTARTS + 1 + m = MAX_ICE_RESTARTS + (1 + m) := by omega
    have h2eq : (runLossEvents role g (MAX_ICE_RESTARTS + 1 + m) s).2 =
        (runLossEvents role g MAX_ICE_RESTARTS s).2 ++ ([] :: List.replicate m []) := by
      rw [hassoc, hsplit, ← hs5, hone]
    have h1eq : (runLossEvents role g (MAX_ICE_RESTARTS + 1 + m) s).1 = s6 := by
      rw [hassoc, hsplit, ← hs5, hone]
    refine ⟨?_, ?_, ?_⟩
    · intro a ha
      rw [h2eq, List.take_append_of_le_length (by omega)] at ha
      exact a8 a (List.mem_of_mem_take ha)
    · intro a ha
      rw [h2eq, List.drop_append_of_le_length (by omega)] at ha
      have hnil : (runLossEvents role g MAX_ICE_RESTARTS s).2.drop MAX_ICE_RESTARTS = [] :=
        List.drop_eq_nil_of_le (by omega)
      rw [hnil] at ha
      have ha' : a ∈ ([] : List RestartAction) :: List.replicate m [] := by simpa using ha
      rcases List.mem_cons.mp ha' with h | h
      · exact h
      · exact List.eq_of_mem_replicate h
    · intro _
      rw [h1eq]

/-- C2 witness: the restart bound applied to a freshly connected sender
session; the five losses exhaust the budget. -/
theorem C2_witness :
    (runLossEvents Role.sender [] MAX_ICE_RESTARTS connectedSession).1.iceRestartCount =
      MAX_ICE_RESTARTS :=
  (C2_restart_bound Role.sender [] connectedSession rfl rfl (by decide) rfl).1.2

/-- Helper: the number of loop iterations of the sender is the result of
rounding size / CHUNK_SIZE up: full chunks plus one more when a remainder
is left. -/
theorem chunkCount_eq (size : Nat) :
    chunkCount size =
      size / CHUNK_SIZE + (if size % CHUNK_SIZE = 0 then 0 else 1) := by
  simp only [chunkCount, CHUNK_SIZE]
  split <;> omega

/-- Helper: the loop of sendFile iterates exactly while its offset is below
the file size. -/
theorem lt_chunkCount_iff (size i : Nat) :
    i < chunkCount size ↔ i * CHUNK_SIZE < size := by
  simp only [chunkCount, CHUNK_SIZE]
  omega

/-- Helper: with enough fuel, the sender loop starting at a given offset
emits the full chunks of the remaining bytes followed by the remainder
frame when those bytes do not divide evenly. -/
theorem sendChunkLoop_eq (size : Nat) :
    ∀ (fuel offset : Nat), size - offset ≤ fuel * CHUNK_SIZE →
      sendChunkLoop CHUNK_SIZE size fuel offset =
        List.replicate ((size - offset) / CHUNK_SIZE) CHUNK_SIZE ++
          (if (size - offset) % CHUNK_SIZE = 0 then []
           else [(size - offset) % CHUNK_SIZE]) := by
  intro fuel
  induction fuel with
  | zero =>
      intro offset h
      have hr : size - offset = 0 := by simpa using h
      rw [hr]
      simp [sendChunkLoop]
  | succ fuel ih =>
      intro offset h
      by_cases ho : offset < size
      · have hrec := ih (offset + CHUNK_SIZE) (by
          simp only [CHUNK_SIZE] at h ⊢
          omega)
        have hstep : sendChunkLoop CHUNK_SIZE size (fuel + 1) offset =
            min CHUNK_SIZE (size - offset) ::
              sendChunkLoop CHUNK_SIZE size fuel (offset + CHUNK_SIZE) := by
          simp [sendChunkLoop, ho]
        have hro : size - (offset + CHUNK_SIZE) = size - offset - CHUNK_SIZE := by
          omega
        rw [hstep, hrec, hro]
        by_cases hC : CHUNK_SIZE ≤ size - offset
        · have hmin : min CHUNK_SIZE (size - offset) = CHUNK_SIZE :=
            Nat.min_eq_left hC
          have hmod : (size - offset - CHUNK_SIZE) % CHUNK_SIZE =
              (size - offset) % CHUNK_SIZE := by
            simp only [CHUNK_SIZE] at hC ⊢
            omega
          have hq1 : (size - offset) / CHUNK_SIZE =
              (size - offset - CHUNK_SIZE) / CHUNK_SIZE + 1 := by
            simp only [CHUNK_SIZE] at hC ⊢
            omega
          rw [hmin, hmod, hq1, List.replicate_succ, List.cons_append]
        · have hmin : min CHUNK_SIZE (size - offset) = size - offset :=
            Nat.min_eq_right (by omega)
          have hsub : size - offset - CHUNK_SIZE = 0 := by omega
          have hq : (size - offset) / CHUNK_SIZE = 0 := by
            simp only [CHUNK_SIZE] at hC ⊢
            omega
          have hm : (size - offset) % CHUNK_SIZE = size - offset := by
            simp only [CHUNK_SIZE] at hC ⊢
            omega
          have hne : ¬ (size - offset = 0) := by omega
          rw [hmin, hsub, hq, hm]
          simp [hne]
      · have hr : size - offset = 0 := by omega
        rw [hr]
        simp [sendChunkLoop, ho]

/-- Helper: the sender's frame lengths are the full chunks followed by the
remainder frame when the size does not divide evenly. -/
theorem sendChunkSizes_eq (size : Nat) :
    sendChunkSizes size =
      List.replicate (size / CHUNK_SIZE) CHUNK_SIZE ++
        (if size % CHUNK_SIZE = 0 then [] else [size % CHUNK_SIZE]) := by
  have h := sendChunkLoop_eq size size 0 (by
    simp only [CHUNK_SIZE]
    omega)
  simpa [sendChunkSizes] using h

/-- Helper: the sender emits exactly as many frames as
Math.ceil(size / CHUNK_SIZE). -/
theorem sendChunkSizes_length (size : Nat) :
    (sendChunkSizes size).length = chunkCount size := by
  rw [sendChunkSizes_eq, chunkCount_eq]
  by_cases hr : size % CHUNK_SIZE = 0 <;> simp [hr]

/-- C3: over an open channel, a file of size at least 1 produces exactly one
meta control message whose totalChunks is the ceiling of size / CHUNK_SIZE,
then that many binary frames — each of CHUNK_SIZE bytes except the last,
which carries size mod CHUNK_SIZE bytes (or CHUNK_SIZE when the size divides
evenly) — then one done control message; at size 700000 the frames are
262144, 262144 and 175712 bytes. -/
theorem C3_sendFile_emission (f : FileInfo) (p : ℚ) (hsize : 1 ≤ f.size) :
    (sendFile (some f) (some ReadyState.open_) p).messages =
      DataMsg.meta (mkFileMeta f) ::
        ((sendChunkSizes f.size).map DataMsg.chunk ++ [DataMsg.done]) ∧
    (mkFileMeta f).totalChunks = f.size ⌈/⌉ CHUNK_SIZE ∧
    (sendChunkSizes f.size).length = (mkFileMeta f).totalChunks ∧
    sendChunkSizes f.size =
      List.replicate (f.size / CHUNK_SIZE) CHUNK_SIZE ++
        (if f.size % CHUNK_SIZE = 0 then [] else [f.size % CHUNK_SIZE]) ∧
    ((mkFileMeta f).totalChunks - 1) * CHUNK_SIZE < f.size ∧
    f.size ≤ (mkFileMeta f).totalChunks * CHUNK_SIZE ∧
    sendChunkSizes 700000 = [262144, 262144, 175712] := by
  have hnz : f.size ≠ 0 := by omega
  refine ⟨?_, ?_, ?_, sendChunkSizes_eq f.size, ?_, ?_, ?_⟩
  · simp [sendFile, hnz]
  · rfl
  · exact sendChunkSizes_length f.size
  · simp only [mkFileMeta, chunkCount, CHUNK_SIZE] at *
    omega
  · simp only [mkFileMeta, chunkCount, CHUNK_SIZE]
    omega
  · rfl

/-- C3 witness: the emission theorem applied to a 700000-byte file. -/
theorem C3_witness :
    sendChunkSizes 700000 = [262144, 262144, 175712] :=
  (C3_sendFile_emission
    (FileInfo.mk "payload.bin" "application/octet-stream" 700000) 0
    (by decide)).2.2.2.2.2.2

/-- C9: a selected file of size 0 is rejected before anything reaches the
channel — no meta control message, no binary frame and no done control
message is emitted — and the send progress is left unchanged. -/
theorem C9_zero_size_rejected (f : FileInfo) (p : ℚ) (hsize : f.size = 0) :
    (sendFile (some f) (some ReadyState.open_) p).messages = [] ∧
    (sendFile (some f) (some ReadyState.open_) p).sendProgress = p ∧
    (sendFile (some f) (some ReadyState.open_) p).status =
      "Empty files are not supported" := by
  refine ⟨?_, ?_, ?_⟩ <;> simp [sendFile, hsize]

/-- C9 witness: the rejection applied to a concrete empty file with a
non-zero prior progress value. -/
theorem C9_witness :
    (sendFile (some (FileInfo.mk "empty.bin" "text/plain" 0))
        (some ReadyState.open_) 37).messages = [] ∧
    (sendFile (some (FileInfo.mk "empty.bin" "text/plain" 0))
        (some ReadyState.open_) 37).sendProgress = 37 ∧
    (sendFile (some (FileInfo.mk "empty.bin" "text/plain" 0))
        (some ReadyState.open_) 37).status = "Empty files are not supported" :=
  C9_zero_size_rejected (FileInfo.mk "empty.bin" "text/plain" 0) 37 rfl

/-- Helper: when a wait on an open channel resolves, the channel is still
open, its configured event threshold is unchanged, and — provided that event
threshold is at most the waited-for threshold — the outstanding buffer is at
or below the waited-for threshold. -/
theorem waitForBufferedAmountLow_ok (ch ch' : ChannelState) (threshold : Nat)
    (ev : WaitEvent) (hopen : ch.isOpen = true) (hlt : ch.lowThreshold ≤ threshold)
    (h : waitForBufferedAmountLow ch threshold ev = Except.ok ch') :
    ch'.bufferedAmount ≤ threshold ∧ ch'.isOpen = true ∧
    ch'.lowThreshold = ch.lowThreshold := by
  unfold waitForBufferedAmountLow at h
  by_cases hc : ch.isOpen = false ∨ ch.bufferedAmount ≤ threshold
  · rw [if_pos hc] at h
    injection h with h
    subst h
    rcases hc with hF | hle
    · rw [hopen] at hF; cases hF
    · exact ⟨hle, hopen, rfl⟩
  · rw [if_neg hc] at h
    push_neg at hc
    cases ev with
    | lowFired drainTo =>
        injection h with h
        subst h
        exact ⟨le_trans (Nat.min_le_right _ _) hlt, hopen, rfl⟩
    | closeFired => cases h
    | errorFired => cases h
    | timerFired drain stillOpen =>
        simp only [] at h
        by_cases hso : stillOpen = false
        · rw [if_pos hso] at h
          cases h
        · rw [if_neg hso] at h
          by_cases hdr : ch.bufferedAmount - drain ≤ threshold
          · rw [if_pos hdr] at h
            injection h with h
            subst h
            exact ⟨hdr, Bool.not_eq_false stillOpen |>.mp hso, rfl⟩
          · rw [if_neg hdr] at h
            cases h


/-- Helper: while the buffer of an open channel is above the threshold, a
close event, an error event, a timer expiring on a closed channel, and a
timer expiring with the buffer still above the threshold all reject the
wait. -/
theorem waitForBufferedAmountLow_rejects (ch : ChannelState) (threshold : Nat)
    (hopen : ch.isOpen = true) (hhigh : threshold < ch.bufferedAmount) :
    waitForBufferedAmountLow ch threshold WaitEvent.closeFired =
      Except.error WaitError.closed ∧
    waitForBufferedAmountLow ch threshold WaitEvent.errorFired =
      Except.error WaitError.errored ∧
    (∀ drain : Nat, threshold < ch.bufferedAmount - drain →
      waitForBufferedAmountLow ch threshold (WaitEvent.timerFired drain true) =
        Except.error WaitError.timeout) ∧
    (∀ drain : Nat,
      waitForBufferedAmountLow ch threshold (WaitEvent.timerFired drain false) =
        Except.error WaitError.closed) := by
  have hc : ¬ (ch.isOpen = false ∨ ch.bufferedAmount ≤ threshold) := by
    rw [hopen]
    simp
    omega
  refine ⟨?_, ?_, ?_, ?_⟩
  · simp [waitForBufferedAmountLow, hc]
  · simp [waitForBufferedAmountLow, hc]
  · intro drain hdr
    simp [waitForBufferedAmountLow, hc]
    omega
  · intro drain
    simp [waitForBufferedAmountLow, hc]

/-- Helper: the sender loop invariant. Every frame is handed over only after
the buffer has drained to the low-water mark, so the buffer samples around
the sends stay bounded; the frames actually sent form a prefix of the
planned frames; and an error leaves that prefix strictly short of the plan
(the loop stops at the failure). -/
theorem sendLoop_invariant (envs : Nat → EnvStep) :
    ∀ (chunks : List Nat) (ch : ChannelState) (i : Nat),
      (∀ l ∈ chunks, l ≤ CHUNK_SIZE) →
      ch.lowThreshold = BUFFERED_AMOUNT_LOW_THRESHOLD →
      (∀ s ∈ (sendLoop envs ch chunks i).samples,
          s.beforeSend ≤ LOW_WATER_MARK ∧
          s.afterSend ≤ LOW_WATER_MARK + CHUNK_SIZE) ∧
      ((sendLoop envs ch chunks i).sent =
        chunks.take (sendLoop envs ch chunks i).sent.length) ∧
      (∀ e, (sendLoop envs ch chunks i).result = Except.error e →
        (sendLoop envs ch chunks i).sent.length < chunks.length) := by
  intro chunks
  induction chunks with
  | nil =>
      intro ch i _ _
      refine ⟨by simp [sendLoop], by simp [sendLoop], ?_⟩
      intro e he
      simp [sendLoop] at he
  | cons len rest ih =>
      intro ch i hle hlow
      by_cases hop : (applyEnvPre ch (envs i)).isOpen = false
      · refine ⟨?_, ?_, ?_⟩ <;> simp [sendLoop, hop]
      · rcases hw : waitForBufferedAmountLow (applyEnvPre ch (envs i))
            LOW_WATER_MARK (envs i).waitEv with e | ch2
        · refine ⟨?_, ?_, ?_⟩ <;> simp [sendLoop, hop, hw]
        · have hopen1 : (applyEnvPre ch (envs i)).isOpen = true :=
            Bool.not_eq_false _ |>.mp hop
          have hlow1 : (applyEnvPre ch (envs i)).lowThreshold ≤ LOW_WATER_MARK := by
            show ch.lowThreshold ≤ LOW_WATER_MARK
            rw [hlow]
            simp [BUFFERED_AMOUNT_LOW_THRESHOLD, LOW_WATER_MARK, CHUNK_SIZE]
          obtain ⟨w1, w2, w3⟩ :=
            waitForBufferedAmountLow_ok _ ch2 LOW_WATER_MARK _ hopen1 hlow1 hw
          have hlen : len ≤ CHUNK_SIZE := hle len (by simp)
          have hrest : ∀ l ∈ rest, l ≤ CHUNK_SIZE := fun l hl => hle l (by simp [hl])
          have hlow3 : ({ ch2 with bufferedAmount := ch2.bufferedAmount + len } :
              ChannelState).lowThreshold = BUFFERED_AMOUNT_LOW_THRESHOLD := by
            show ch2.lowThreshold = _
            rw [w3]
            exact hlow
          obtain ⟨i1, i2, i3⟩ := ih { ch2 with bufferedAmount := ch2.bufferedAmount + len }
            (i + 1) hrest hlow3
          refine ⟨?_, ?_, ?_⟩
          · intro s hsmem
            have : s = SendSample.mk ch2.bufferedAmount (ch2.bufferedAmount + len) ∨
                s ∈ (sendLoop envs { ch2 with bufferedAmount := ch2.bufferedAmount + len }
                  rest (i + 1)).samples := by
              simpa [sendLoop, hop, hw] using hsmem
            rcases this with h | h
            · subst h
              constructor
              · exact w1
              · show ch2.bufferedAmount + len ≤ LOW_WATER_MARK + CHUNK_SIZE
                omega
            · exact i1 s h
          · show (sendLoop envs ch (len :: rest) i).sent =
              (len :: rest).take (sendLoop envs ch (len :: rest) i).sent.length
            have hsent : (sendLoop envs ch (len :: rest) i).sent =
                len :: (sendLoop envs { ch2 with
                  bufferedAmount := ch2.bufferedAmount + len } rest (i + 1)).sent := by
              simp [sendLoop, hop, hw]
            rw [hsent, List.length_cons, List.take_succ_cons, ← i2]
          · intro e he
            have he' : (sendLoop envs { ch2 with
                bufferedAmount := ch2.bufferedAmount + len } rest (i + 1)).result =
                Except.error e := by
              simpa [sendLoop, hop, hw] using he
            have := i3 e he'
            simp only [sendLoop, hop, hw, Bool.false_eq_true, if_false]
            simp only [List.length_cons]
            simpa using Nat.succ_lt_succ this

/-- C4: during a send, the buffer sampled immediately before each frame is
handed to the channel is at or below the low-water mark CHUNK_SIZE * 8, and
immediately after it exceeds the mark by at most one chunk, for every
environment behaviour; a wait that sees a close or error event, a timer
expiry on a closed channel, or a timer expiry with the buffer still above
the mark rejects; a rejected wait aborts the transfer — the frames sent stop
strictly short of the plan and the session is marked failed, with no
automatic resume by the engine. -/
theorem C4_backpressure (envs : Nat → EnvStep) (ch : ChannelState) (size i : Nat)
    (hlow : ch.lowThreshold = BUFFERED_AMOUNT_LOW_THRESHOLD) :
    (∀ s ∈ (sendLoop envs ch (sendChunkSizes size) i).samples,
        s.beforeSend ≤ LOW_WATER_MARK ∧
        s.afterSend ≤ LOW_WATER_MARK + CHUNK_SIZE) ∧
    ((sendLoop envs ch (sendChunkSizes size) i).sent =
      (sendChunkSizes size).take (sendLoop envs ch (sendChunkSizes size) i).sent.length) ∧
    (∀ e, (sendLoop envs ch (sendChunkSizes size) i).result = Except.error e →
      (sendLoop envs ch (sendChunkSizes size) i).sent.length <
        (sendChunkSizes size).length ∧
      sendFileOutcome (sendLoop envs ch (sendChunkSizes size) i).result =
        ConnState.failed) ∧
    (∀ ch2 : ChannelState, ch2.isOpen = true →
      LOW_WATER_MARK < ch2.bufferedAmount →
      waitForBufferedAmountLow ch2 LOW_WATER_MARK WaitEvent.closeFired =
        Except.error WaitError.closed ∧
      waitForBufferedAmountLow ch2 LOW_WATER_MARK WaitEvent.errorFired =
        Except.error WaitError.errored ∧
      (∀ drain : Nat, LOW_WATER_MARK < ch2.bufferedAmount - drain →
        waitForBufferedAmountLow ch2 LOW_WATER_MARK (WaitEvent.timerFired drain true) =
          Except.error WaitError.timeout) ∧
      (∀ drain : Nat,
        waitForBufferedAmountLow ch2 LOW_WATER_MARK (WaitEvent.timerFired drain false) =
          Except.error WaitError.closed)) := by
  have hall : ∀ l ∈ sendChunkSizes size, l ≤ CHUNK_SIZE := by
    intro l hl
    rw [sendChunkSizes_eq] at hl
    rcases List.mem_append.mp hl with h | h
    · rw [List.eq_of_mem_replicate h]
    · by_cases hr : size % CHUNK_SIZE = 0
      · rw [if_pos hr] at h
        cases h
      · rw [if_neg hr] at h
        have hl' : l = size % CHUNK_SIZE := by simpa using h
        rw [hl']
        simp only [CHUNK_SIZE]
        omega
  obtain ⟨p1, p2, p3⟩ := sendLoop_invariant envs (sendChunkSizes size) ch i hall hlow
  refine ⟨p1, p2, ?_, ?_⟩
  · intro e he
    refine ⟨p3 e he, ?_⟩
    rw [he]
    rfl
  · intro ch2 hopen hhigh
    exact waitForBufferedAmountLow_rejects ch2 LOW_WATER_MARK hopen hhigh

/-- C4 witness: the backpressure invariant applied to a 700000-byte plan on
a fresh open channel with an immediately-draining environment. -/
theorem C4_witness :
    (sendLoop (fun _ => EnvStep.mk 0 false (WaitEvent.lowFired 0))
        (ChannelState.mk true 0 BUFFERED_AMOUNT_LOW_THRESHOLD)
        (sendChunkSizes 700000) 0).sent =
      (sendChunkSizes 700000).take
        ((sendLoop (fun _ => EnvStep.mk 0 false (WaitEvent.lowFired 0))
          (ChannelState.mk true 0 BUFFERED_AMOUNT_LOW_THRESHOLD)
          (sendChunkSizes 700000) 0).sent.length) :=
  (C4_backpressure (fun _ => EnvStep.mk 0 false (WaitEvent.lowFired 0))
    (ChannelState.mk true 0 BUFFERED_AMOUNT_LOW_THRESHOLD) 700000 0 rfl).2.1

/-- C5 counterexample: the binary-frame handler stores the uncapped
percentage — two 60-byte frames of a 100-byte transfer leave the stored
receive progress at 120, not at the claimed cap of 100 — and a frame whose
disk write fails does not add its length to bytesMoved at all. -/
theorem C5_counterexample :
    (onBinaryFrame (onBinaryFrame recvMemoryState 60 true) 60 true).incomingReceived = 120 ∧
    (onBinaryFrame (onBinaryFrame recvMemoryState 60 true) 60 true).receiveProgress = 120 ∧
    (onBinaryFrame (onBinaryFrame recvMemoryState 60 true) 60 true).receiveProgress ≠ 100 ∧
    (onBinaryFrame recvDiskState 60 false).incomingReceived = 0 := by
  refine ⟨by decide, ?_, ?_, by decide⟩
  · show (if (0 : Nat) < 100 then ((120 : Nat) : ℚ) / ((100 : Nat) : ℚ) * 100 else 100) = 120
    norm_num
  · show (if (0 : Nat) < 100 then ((120 : Nat) : ℚ) / ((100 : Nat) : ℚ) * 100 else 100) ≠ 100
    norm_num

/-- C5 (amended): for a transfer announced with totalSize at least 1, every
binary frame that is appended to the active sink (every frame in memory
mode; a frame whose disk write succeeds in disk mode) adds its length to
bytesMoved, and the handler stores the uncapped percentage
bytesMoved / totalSize * 100; the progress the UI reports is that value
clamped to the range 0–100, hence capped at 100 even when the received bytes
exceed totalSize. A frame whose disk write fails adds nothing, leaves the
progress untouched and marks the session failed. -/
theorem C5_receive_progress (s : AppState) (m : FileMeta) (len : Nat) (ok : Bool)
    (hm : s.incomingMeta = some m) (hsz : 1 ≤ m.size) :
    (s.writable = false ∨ ok = true →
      (onBinaryFrame s len ok).incomingReceived = s.incomingReceived + len ∧
      (onBinaryFrame s len ok).receiveProgress =
        (((s.incomingReceived + len : Nat) : ℚ) / ((m.size : Nat) : ℚ)) * 100 ∧
      boundedProgress (onBinaryFrame s len ok).receiveProgress =
        min 100 ((((s.incomingReceived + len : Nat) : ℚ) / ((m.size : Nat) : ℚ)) * 100)) ∧
    (s.writable = true → ok = false →
      (onBinaryFrame s len ok).incomingReceived = s.incomingReceived ∧
      (onBinaryFrame s len ok).receiveProgress = s.receiveProgress ∧
      (onBinaryFrame s len ok).connState = ConnState.failed) := by
  have htot : (0 : Nat) < m.size := by omega
  have hnonneg : (0 : ℚ) ≤
      (((s.incomingReceived + len : Nat) : ℚ) / ((m.size : Nat) : ℚ)) * 100 := by
    positivity
  have hbound : ∀ x : ℚ, 0 ≤ x → boundedProgress x = min 100 x := by
    intro x hx
    unfold boundedProgress
    exact max_eq_right (le_min (by norm_num) hx)
  have hacc : ∀ s1 : AppState, s1.incomingMeta = some m →
      s1.incomingReceived = s.incomingReceived →
      (accumulateFrame s1 len).incomingReceived = s.incomingReceived + len ∧
      (accumulateFrame s1 len).receiveProgress =
        (((s.incomingReceived + len : Nat) : ℚ) / ((m.size : Nat) : ℚ)) * 100 := by
    intro s1 hm1 hr1
    have hsize : ((s1.incomingMeta.map FileMeta.size).getD 1) = m.size := by
      rw [hm1]; rfl
    constructor
    · simp [accumulateFrame, hr1]
    · show (if 0 < ((s1.incomingMeta.map FileMeta.size).getD 1) then
          (((s1.incomingReceived + len : Nat) : ℚ) /
            (((s1.incomingMeta.map FileMeta.size).getD 1 : Nat) : ℚ)) * 100
        else 100) = _
      rw [hsize, if_pos htot, hr1]
  constructor
  · intro hok
    have hcase : onBinaryFrame s len ok = accumulateFrame s len ∨
        onBinaryFrame s len ok =
          accumulateFrame { s with incomingChunks := s.incomingChunks ++ [len] } len := by
      rcases hok with hw | hok
      · right; simp [onBinaryFrame, hw]
      · by_cases hw : s.writable = true
        · left; simp [onBinaryFrame, hw, hok]
        · right
          have hw' : s.writable = false := by
            cases h : s.writable
            · rfl
            · exact absurd h hw
          simp [onBinaryFrame, hw']
    rcases hcase with heq | heq <;> rw [heq]
    · obtain ⟨ha, hb⟩ := hacc s hm rfl
      exact ⟨ha, hb, by rw [hb]; exact hbound _ hnonneg⟩
    · obtain ⟨ha, hb⟩ := hacc { s with incomingChunks := s.incomingChunks ++ [len] } hm rfl
      exact ⟨ha, hb, by rw [hb]; exact hbound _ hnonneg⟩
  · intro hw hok
    subst hok
    refine ⟨?_, ?_, ?_⟩ <;> simp [onBinaryFrame, hw, closeWritable]

/-- C5 witness: a successfully appended frame in memory mode adds its
length to bytesMoved. -/
theorem C5_witness :
    (onBinaryFrame recvMemoryState 50 true).incomingReceived =
      recvMemoryState.incomingReceived + 50 :=
  ((C5_receive_progress recvMemoryState (incomingMetaOfSize 100) 50 true
    (by decide) (by decide)).1 (Or.inl (by decide))).1

/-- C8: evaluation at the failing input. A transfer that selected the
progressive disk writer at the meta boundary suffers a write failure on its
first frame: the sink is aborted (not committed) and the session is marked
failed, as the claim demands — but the next frame of the same transfer is
then appended to the memory accumulator, because the nulled sink ref sends
every subsequent frame down the memory branch. The claimed sink exclusivity
is the documented intent; the fallthrough is a slip in the handler. -/
theorem C8_disk_failure_memory_fallback :
    recvDiskState.writable = true ∧
    recvDiskState.activeReceiveMode = ReceiveStorageMode.disk ∧
    recvDiskState.incomingChunks = [] ∧
    (onBinaryFrame recvDiskState 1000 false).connState = ConnState.failed ∧
    (onBinaryFrame recvDiskState 1000 false).writable = false ∧
    (onBinaryFrame recvDiskState 1000 false).sinkLog = [SinkClose.aborted] ∧
    (onBinaryFrame recvDiskState 1000 false).incomingChunks = [] ∧
    (onBinaryFrame (onBinaryFrame recvDiskState 1000 false) 1000 true).incomingChunks =
      [1000] := by
  refine ⟨rfl, rfl, rfl, rfl, rfl, rfl, rfl, rfl⟩

/-- Helper: one signaling event preserves the candidate-queue invariants —
the pending queue is non-empty only without a remote description, a remote
description only exists on a live peer, every arrived candidate is either
already applied or still pending — and never changes the connection phase. -/
theorem stepSignal_preserves (s : AppState) (ev : SignalEv)
    (h1 : s.pendingIce ≠ [] → s.remoteDescSet = false)
    (h2 : s.remoteDescSet = true → s.peer = true)
    (h3 : s.arrivedIce = s.appliedIce ++ s.pendingIce) :
    ((stepSignal s ev).pendingIce ≠ [] → (stepSignal s ev).remoteDescSet = false) ∧
    ((stepSignal s ev).remoteDescSet = true → (stepSignal s ev).peer = true) ∧
    ((stepSignal s ev).arrivedIce =
      (stepSignal s ev).appliedIce ++ (stepSignal s ev).pendingIce) ∧
    (stepSignal s ev).connState = s.connState := by
  cases ev with
  | iceArrives c ok =>
      by_cases hq : s.peer = false ∨ s.remoteDescSet = false
      · have hrd : s.remoteDescSet = false := by
          rcases hq with hp | hr
          · cases h : s.remoteDescSet
            · rfl
            · have := h2 h
              rw [hp] at this
              cases this
          · exact hr
        refine ⟨?_, ?_, ?_, ?_⟩ <;>
          simp [stepSignal, onIce, hq, hrd, h3]
      · push_neg at hq
        obtain ⟨hp, hr⟩ := hq
        have hp' : s.peer = true := by
          cases h : s.peer
          · exact absurd h hp
          · rfl
        have hr' : s.remoteDescSet = true := by
          cases h : s.remoteDescSet
          · exact absurd h hr
          · rfl
        have hpend : s.pendingIce = [] := by
          by_cases h : s.pendingIce = []
          · exact h
          · rw [h1 h] at hr'
            cases hr'
        refine ⟨?_, ?_, ?_, ?_⟩ <;>
          simp [stepSignal, onIce, hp', hr', hpend, h3, hpend]
  | offerArrives =>
      by_cases hpend : s.pendingIce = []
      · refine ⟨?_, ?_, ?_, ?_⟩ <;>
          simp [stepSignal, applyRemoteDescription, makePeerConnectionState,
            flushPendingIce, hpend, h3]
      · refine ⟨?_, ?_, ?_, ?_⟩ <;>
          simp [stepSignal, applyRemoteDescription, makePeerConnectionState,
            flushPendingIce, hpend, h3]
  | answerArrives =>
      by_cases hp : s.peer = true
      · by_cases hpend : s.pendingIce = []
        · refine ⟨?_, ?_, ?_, ?_⟩ <;>
            simp [stepSignal, applyRemoteDescription, flushPendingIce, hp, hpend, h3]
        · refine ⟨?_, ?_, ?_, ?_⟩ <;>
            simp [stepSignal, applyRemoteDescription, flushPendingIce, hp, hpend, h3]
      · have hp' : s.peer = false := by
          cases h : s.peer
          · rfl
          · exact absurd h hp
        have hstep : stepSignal s SignalEv.answerArrives = s := by
          simp [stepSignal, hp']
        rw [hstep]
        exact ⟨h1, h2, h3, rfl⟩

/-- Helper: a whole trace of signaling events preserves the candidate-queue
invariants and the connection phase. -/
theorem runSignal_preserves (evs : List SignalEv) :
    ∀ s : AppState,
      (s.pendingIce ≠ [] → s.remoteDescSet = false) →
      (s.remoteDescSet = true → s.peer = true) →
      (s.arrivedIce = s.appliedIce ++ s.pendingIce) →
      ((runSignal s evs).pendingIce ≠ [] → (runSignal s evs).remoteDescSet = false) ∧
      ((runSignal s evs).remoteDescSet = true → (runSignal s evs).peer = true) ∧
      ((runSignal s evs).arrivedIce =
        (runSignal s evs).appliedIce ++ (runSignal s evs).pendingIce) ∧
      (runSignal s evs).connState = s.connState := by
  induction evs with
  | nil =>
      intro s p1 p2 p3
      exact ⟨p1, p2, p3, rfl⟩
  | cons ev rest ih =>
      intro s p1 p2 p3
      obtain ⟨q1, q2, q3, q4⟩ := stepSignal_preserves s ev p1 p2 p3
      have hfold : runSignal s (ev :: rest) = runSignal (stepSignal s ev) rest := rfl
      rw [hfold]
      obtain ⟨r1, r2, r3, r4⟩ := ih (stepSignal s ev) q1 q2 q3
      exact ⟨r1, r2, r3, by rw [r4, q4]⟩

/-- C6: over any trace of candidate and description events, the pending
queue is non-empty only while no remote description exists; every arrived
candidate is either applied or still pending (so none is applied twice), and
once a remote description is set every arrived candidate has been applied
exactly once; candidate events never change the connection phase. A
candidate arriving with a remote description in place is applied at once;
otherwise it is queued; and an application failure is swallowed silently —
the resulting session state is identical to a successful application. -/
theorem C6_pending_candidates (s : AppState) (evs : List SignalEv)
    (h1 : s.pendingIce ≠ [] → s.remoteDescSet = false)
    (h2 : s.remoteDescSet = true → s.peer = true)
    (h3 : s.arrivedIce = s.appliedIce ++ s.pendingIce) :
    ((runSignal s evs).pendingIce ≠ [] → (runSignal s evs).remoteDescSet = false) ∧
    ((runSignal s evs).arrivedIce =
      (runSignal s evs).appliedIce ++ (runSignal s evs).pendingIce) ∧
    ((runSignal s evs).remoteDescSet = true →
      (runSignal s evs).arrivedIce = (runSignal s evs).appliedIce) ∧
    ((runSignal s evs).connState = s.connState) ∧
    (∀ (t : AppState) (c : Nat) (ok : Bool), t.peer = true → t.remoteDescSet = true →
      (onIce t c ok).appliedIce = t.appliedIce ++ [c] ∧
      (onIce t c ok).pendingIce = t.pendingIce) ∧
    (∀ (t : AppState) (c : Nat) (ok : Bool), t.peer = false ∨ t.remoteDescSet = false →
      (onIce t c ok).pendingIce = t.pendingIce ++ [c] ∧
      (onIce t c ok).appliedIce = t.appliedIce) ∧
    (∀ (t : AppState) (c : Nat), onIce t c false = onIce t c true) := by
  obtain ⟨r1, r2, r3, r4⟩ := runSignal_preserves evs s h1 h2 h3
  refine ⟨r1, r3, ?_, r4, ?_, ?_, ?_⟩
  · intro hrd
    have hpend : (runSignal s evs).pendingIce = [] := by
      by_cases h : (runSignal s evs).pendingIce = []
      · exact h
      · rw [r1 h] at hrd
        cases hrd
    rw [r3, hpend, List.append_nil]
  · intro t c ok hp hr
    constructor <;> simp [onIce, hp, hr]
  · intro t c ok hq
    constructor <;> simp [onIce, hq]
  · intro t c
    rfl

/-- C6 witness: the invariants evaluated over a concrete trace — one
candidate queued before the offer, flushed by it, one applied directly
after it. -/
theorem C6_witness :
    (runSignal initialAppState [SignalEv.iceArrives 1 true, SignalEv.offerArrives,
      SignalEv.iceArrives 2 false]).arrivedIce =
      (runSignal initialAppState [SignalEv.iceArrives 1 true, SignalEv.offerArrives,
        SignalEv.iceArrives 2 false]).appliedIce ++
      (runSignal initialAppState [SignalEv.iceArrives 1 true, SignalEv.offerArrives,
        SignalEv.iceArrives 2 false]).pendingIce :=
  (C6_pending_candidates initialAppState
    [SignalEv.iceArrives 1 true, SignalEv.offerArrives, SignalEv.iceArrives 2 false]
    (by decide) (by decide) rfl).2.1

/-- C7: session teardown with UI reset is idempotent and total from any
phase: a second invocation changes nothing; afterwards the phase is Idle,
the pending-candidate queue is empty, both progress values are 0, the
restart counter is 0, no sink is open, and an open disk sink was aborted
(not committed) by the teardown. -/
theorem C7_cleanup_idempotent (s : AppState) :
    cleanup true (cleanup true s) = cleanup true s ∧
    (cleanup true s).connState = ConnState.idle ∧
    (cleanup true s).pendingIce = [] ∧
    (cleanup true s).sendProgress = 0 ∧
    (cleanup true s).receiveProgress = 0 ∧
    (cleanup true s).iceRestartCount = 0 ∧
    (cleanup true s).writable = false ∧
    (s.writable = true → (cleanup true s).sinkLog = s.sinkLog ++ [SinkClose.aborted]) ∧
    (s.writable = false → (cleanup true s).sinkLog = s.sinkLog) := by
  by_cases hw : s.writable = true
  · refine ⟨?_, ?_, ?_, ?_, ?_, ?_, ?_, ?_, ?_⟩ <;>
      simp [cleanup, closeWritable, hw]
  · have hw' : s.writable = false := by
      cases h : s.writable
      · rfl
      · exact absurd h hw
    refine ⟨?_, ?_, ?_, ?_, ?_, ?_, ?_, ?_, ?_⟩ <;>
      simp [cleanup, closeWritable, hw']

/-- C7 witness: tearing down the disk-receiving session aborts its open
sink and lands in Idle; a second teardown is a no-op. -/
theorem C7_witness :
    (cleanup true recvDiskState).sinkLog = recvDiskState.sinkLog ++ [SinkClose.aborted] :=
  (C7_cleanup_idempotent recvDiskState).2.2.2.2.2.2.2.1 rfl

/-- Helper: every character of the randomId alphabet lies in the
[a-zA-Z0-9_-] class of the route patterns. -/
theorem idAlphabet_chars : ∀ i : Nat, i < 32 → isIdChar (idAlphabet.getD i 'a') = true := by
  decide

/-- Helper: a generated randomId consists solely of pattern characters. -/
theorem randomId_chars (bytes : List Nat) : (randomId bytes).all isIdChar = true := by
  rw [List.all_eq_true]
  intro c hc
  obtain ⟨b, _, hb⟩ := List.mem_map.mp hc
  rw [← hb]
  exact idAlphabet_chars (b % idAlphabet.length) (Nat.mod_lt _ (by decide))

/-- Helper: a randomId is as long as its byte source. -/
theorem randomId_length (bytes : List Nat) : (randomId bytes).length = bytes.length := by
  simp [randomId]

/-- Helper: every decimal digit character lies in the pattern class. -/
theorem digitChar_isIdChar : ∀ k : Nat, k < 10 → isIdChar (Nat.digitChar k) = true := by
  decide

/-- Helper: the decimal rendering uses only digit characters. -/
theorem decimalDigitsAux_chars :
    ∀ (fuel n : Nat), n < fuel → (decimalDigitsAux fuel n).all isIdChar = true := by
  intro fuel
  induction fuel with
  | zero => intro n h; omega
  | succ f ih =>
      intro n _
      by_cases hn : n < 10
      · simp [decimalDigitsAux, hn, digitChar_isIdChar n hn]
      · have hrec : (decimalDigitsAux f (n / 10)).all isIdChar = true := by
          apply ih
          omega
        have hd : isIdChar (Nat.digitChar (n % 10)) = true :=
          digitChar_isIdChar (n % 10) (by omega)
        simp [decimalDigitsAux, hn, List.all_append, hrec, hd]

/-- Helper: the decimal rendering of a timestamp uses only digit
characters. -/
theorem decimalDigits_chars (n : Nat) : (decimalDigits n).all isIdChar = true :=
  decimalDigitsAux_chars (n + 1) n (by omega)

/-- Helper: a decimal rendering is never empty. -/
theorem decimalDigits_length_pos (n : Nat) : 0 < (decimalDigits n).length := by
  by_cases hn : n < 10
  · simp [decimalDigits, decimalDigitsAux, hn]
  · simp [decimalDigits, decimalDigitsAux, hn]

/-- C10: every room ID the sender generates (randomId over ten random
bytes) matches ROOM_ID_PATTERN, and every peer ID makePeerId generates
(decimal timestamp of at most 113 digits, hyphen, randomId over six random
bytes) matches CLIENT_ID_PATTERN; hence the token route never answers
Invalid roomId or Invalid clientId for a self-generated room and identity,
whatever the server key configuration. -/
theorem C10_generated_ids_valid (roomBytes peerBytes : List Nat) (ts : Nat)
    (hroom : roomBytes.length = 10) (hpeer : peerBytes.length = 6)
    (hts : (decimalDigits ts).length ≤ 113) :
    roomIdPatternTest (randomId roomBytes) = true ∧
    clientIdPatternTest (makePeerId ts peerBytes) = true ∧
    (∀ key : Bool,
      ablyTokenGET key (some (randomId roomBytes)) (some (makePeerId ts peerBytes)) ≠
        TokenResponse.invalidRoomId ∧
      ablyTokenGET key (some (randomId roomBytes)) (some (makePeerId ts peerBytes)) ≠
        TokenResponse.invalidClientId) := by
  have hrlen : (randomId roomBytes).length = 10 := by
    rw [randomId_length, hroom]
  have hr : roomIdPatternTest (randomId roomBytes) = true := by
    simp [roomIdPatternTest, hrlen, randomId_chars]
  have hplen : (makePeerId ts peerBytes).length = (decimalDigits ts).length + 7 := by
    simp [makePeerId, randomId_length, hpeer]
  have hpos := decimalDigits_length_pos ts
  have hpchars : (makePeerId ts peerBytes).all isIdChar = true := by
    simp [makePeerId, List.all_append, decimalDigits_chars, randomId_chars]
    decide
  have hcl : clientIdPatternTest (makePeerId ts peerBytes) = true := by
    simp only [clientIdPatternTest, Bool.and_eq_true, decide_eq_true_eq]
    refine ⟨⟨by omega, by omega⟩, hpchars⟩
  refine ⟨hr, hcl, ?_⟩
  intro key
  cases key
  · constructor <;> simp [ablyTokenGET]
  · constructor <;> simp [ablyTokenGET, hr, hcl]

/-- C10 witness: the pattern guarantees applied to a concrete ten-byte room
source, six-byte peer source and a two-digit timestamp. -/
theorem C10_witness :
    roomIdPatternTest (randomId (List.replicate 10 7)) = true ∧
    clientIdPatternTest (makePeerId 99 (List.replicate 6 3)) = true :=
  ⟨(C10_generated_ids_valid (List.replicate 10 7) (List.replicate 6 3) 99
      (by decide) (by decide) (by decide)).1,
    (C10_generated_ids_valid (List.replicate 10 7) (List.replicate 6 3) 99
      (by decide) (by decide) (by decide)).2.1⟩

end P2PShare
